import Mathlib

/-!
Shallow embedding of the aeromatch matching engine core
(models/order.go, the order-book file defining
ProcessBuyOrder/AddBid/removeAsk/GetBestBid/GetMarketDepth, and the snapshot
manager file defining TakeSnapshots/takeSnapshot/calculateStats).  The
Matching Engine's instrument resolution is not part of the staged source;
those definitions are modelled from the spec and marked as such in their doc
comments.

Modelling conventions:
- Go `float64` prices and quantities are modelled as `Int`.  Every claim under
  study exercises only comparison, `min`, addition and subtraction on small
  integral values, on which IEEE-754 double arithmetic is exact, so `Int` is a
  faithful model of the reachable computations.
- The Go linked list of `OrderNode`s on each book side is modelled as
  `List Order`, head first.  `GetBestBid`/`GetBestAsk` read the head;
  `AddBid`/`AddAsk` CAS-append at the tail, which under the single-writer
  discipline is `l ++ [o]`; in-place mutation of the node at the head through
  the `*models.Order` pointer is modelled by replacing the head element.
- `removeBid`/`removeAsk` have empty bodies in the source; they are modelled
  as the identity on the list, exactly as the code behaves.
- The matching loop `for remainingQty > 0 { ... }` is modelled with explicit
  fuel: `matchLoopBuy fuel s` returns the loop state after at most `fuel`
  iterations together with a flag telling whether the loop exited within
  `fuel` iterations.  Trades are accumulated in the state as they are sent to
  the `processedTrades` channel, so they are observable even on runs that do
  not exit.
- `Trade` keeps the fields the matching algorithm computes (price, quantity,
  maker/taker ids, instrument, side); the globally-counted `TradeID` /
  `ExecutionID` and the wall-clock timestamp are omitted as no claim under
  study mentions them.
-/

/-- Order types, from models/order.go (`Limit`, `Market`, `IOC`, `FOK`, `PostOnly`). -/
inductive OrderType where
  | Limit
  | Market
  | IOC
  | FOK
  | PostOnly
  deriving DecidableEq, Repr

/-- Order sides, from models/order.go. -/
inductive OrderSide where
  | Buy
  | Sell
  deriving DecidableEq, Repr

/-- Order statuses, from models/order.go (`New`, `Partial`, `Filled`, `Cancelled`, `Rejected`). -/
inductive OrderStatus where
  | New
  | Partial
  | Filled
  | Cancelled
  | Rejected
  deriving DecidableEq, Repr

/-- models.Order, hot-path fields plus `Instrument` and `Status`
(account, timestamps, client id, tags and margin params carry no behaviour). -/
structure Order where
  ID : Nat
  Price : Int
  Quantity : Int
  Remaining : Int
  Side : OrderSide
  Typ : OrderType   -- the Go field `Type` (a Lean keyword)
  Instrument : String
  Status : OrderStatus
  deriving DecidableEq, Repr

/-- models.Trade as built by `createTradeDraft` / `createTrade`
(price, quantity, maker/taker order ids, instrument, taker side). -/
structure Trade where
  Price : Int
  Quantity : Int
  MakerOrderID : Nat
  TakerOrderID : Nat
  Instrument : String
  Side : OrderSide
  deriving DecidableEq, Repr

/-- An order book: the bid side and the ask side, each a head-first list of
resting orders (the linked list from `OrderSide.head`). -/
structure Book where
  bids : List Order
  asks : List Order
  deriving DecidableEq, Repr

/-- `OrderBook.GetBestBid`: loads `bids.head` and returns its order, with an
existence flag; `none` models the `(nil, false)` return. -/
def GetBestBid (ob : Book) : Option Order :=
  ob.bids.head?

/-- `OrderBook.GetBestAsk`: loads `asks.head` and returns its order. -/
def GetBestAsk (ob : Book) : Option Order :=
  ob.asks.head?

/-- `OrderBook.GetBestBidPrice` (book.go): price of the head of the bid list,
`none` when the side is empty. -/
def GetBestBidPrice (ob : Book) : Option Int :=
  (GetBestBid ob).map Order.Price

/-- `OrderBook.GetBestAskPrice` (book.go). -/
def GetBestAskPrice (ob : Book) : Option Int :=
  (GetBestAsk ob).map Order.Price

/-- `OrderBook.AddBid`: CAS-appends a new node holding the order at the tail
of the bid list (no price comparison is performed anywhere in the function). -/
def AddBid (bids : List Order) (o : Order) : List Order :=
  bids ++ [o]

/-- `OrderBook.AddAsk`: CAS-appends at the tail of the ask list. -/
def AddAsk (asks : List Order) (o : Order) : List Order :=
  asks ++ [o]

/-- `OrderBook.removeBid`: the function body in the source is empty, so the
bid list is returned unchanged. -/
def removeBid (bids : List Order) (o : Order) : List Order :=
  bids

/-- `OrderBook.removeAsk`: the function body in the source is empty, so the
ask list is returned unchanged. -/
def removeAsk (asks : List Order) (o : Order) : List Order :=
  asks

/-- State of the `ProcessBuyOrder` matching loop: the ask side, the incoming
(taker) order as mutated through its pointer, the local `remainingQty`, and
the trades sent to `processedTrades` so far. -/
structure BuyState where
  asks : List Order
  taker : Order
  remQty : Int
  trades : List Trade
  deriving DecidableEq, Repr

/-- One iteration of the `ProcessBuyOrder` loop body, given `remQty > 0`
already checked by the loop condition.  Returns `(continue?, state')`:
`continue? = false` models `break` (no best ask, price does not cross, or the
IOC early exit after a fill). -/
def buyStep (s : BuyState) : Bool × BuyState :=
  match s.asks with
  | [] => (false, s)
  | bestAsk :: rest =>
    if s.taker.Typ ≠ OrderType.Market ∧ s.taker.Price < bestAsk.Price then
      (false, s)
    else
      let fillQty := min s.remQty bestAsk.Remaining
      let fillPrice := bestAsk.Price
      let trade : Trade :=
        { Price := fillPrice, Quantity := fillQty,
          MakerOrderID := bestAsk.ID, TakerOrderID := s.taker.ID,
          Instrument := bestAsk.Instrument, Side := s.taker.Side }
      let remQty' := s.remQty - fillQty
      let bestAsk' := { bestAsk with Remaining := bestAsk.Remaining - fillQty }
      let taker' := { s.taker with Remaining := s.taker.Remaining - fillQty }
      let asks1 := bestAsk' :: rest
      let asks2 := if bestAsk'.Remaining ≤ 0 then removeAsk asks1 bestAsk' else asks1
      let s' : BuyState :=
        { asks := asks2, taker := taker', remQty := remQty',
          trades := s.trades ++ [trade] }
      if s.taker.Typ = OrderType.IOC ∧ remQty' > 0 then (false, s') else (true, s')

/-- The `for remainingQty > 0` loop of `ProcessBuyOrder` / `matchBuyOrder`,
with explicit fuel.  The second component is `true` iff the loop exited
(normally or by `break`) within `fuel` iterations; on fuel exhaustion the
state reached so far is returned with `false`. -/
def matchLoopBuy : Nat → BuyState → BuyState × Bool
  | 0, s => (s, false)
  | Nat.succ fuel, s =>
    if s.remQty > 0 then
      match buyStep s with
      | (true, s') => matchLoopBuy fuel s'
      | (false, s') => (s', true)
    else (s, true)

/-- `OrderBook.ProcessBuyOrder` (= `MatchingEngine.matchBuyOrder`): runs the
matching loop starting from `remainingQty := order.Quantity`, then rests the
taker on the bid side when quantity is left and the type is neither IOC nor
FOK.  `none` models a run whose loop does not exit within `fuel` iterations. -/
def ProcessBuyOrder (fuel : Nat) (book : Book) (order : Order) :
    Option (Book × Order × List Trade) :=
  let r := matchLoopBuy fuel
    { asks := book.asks, taker := order, remQty := order.Quantity, trades := [] }
  if r.2 then
    let s := r.1
    let book' : Book := { bids := book.bids, asks := s.asks }
    let book'' : Book :=
      if s.remQty > 0 ∧ order.Typ ≠ OrderType.IOC ∧ order.Typ ≠ OrderType.FOK then
        { book' with bids := AddBid book'.bids s.taker }
      else book'
    some (book'', s.taker, s.trades)
  else none

/-- A price level of an order-book snapshot (snapshot manager file). -/
structure PriceLevel where
  Price : Int
  Quantity : Int
  Orders : Nat
  deriving DecidableEq, Repr

/-- SnapshotStats (snapshot manager file).  `MidPrice` uses integer division
as the model of the source's division by two; the claims under study only
reach it on empty depth, where it is never computed. -/
structure SnapshotStats where
  TotalBidQuantity : Int
  TotalAskQuantity : Int
  BidOrders : Nat
  AskOrders : Nat
  Spread : Int
  MidPrice : Int
  deriving DecidableEq, Repr

/-- OrderBookSnapshot (snapshot manager file); the wall-clock `Timestamp` is
omitted. -/
structure OrderBookSnapshot where
  Instrument : String
  Sequence : Nat
  Bids : List PriceLevel
  Asks : List PriceLevel
  Stats : SnapshotStats
  deriving DecidableEq, Repr

/-- `OrderBook.GetMarketDepth`: the source allocates a snapshot with empty
`Bids`/`Asks` slices and returns it; the population logic is an unwritten
TODO, so the result is always empty regardless of the book or the level. -/
def GetMarketDepth (ob : Book) (level : Nat) : OrderBookSnapshot :=
  { Instrument := "", Sequence := 0, Bids := [], Asks := [],
    Stats := { TotalBidQuantity := 0, TotalAskQuantity := 0, BidOrders := 0,
               AskOrders := 0, Spread := 0, MidPrice := 0 } }

/-- `SnapshotManager.calculateStats`: sums quantities and order counts over
the depth's levels and, when both sides are non-empty, derives spread and
mid-price from the head levels. -/
def calculateStats (depth : OrderBookSnapshot) : SnapshotStats :=
  let s0 : SnapshotStats :=
    { TotalBidQuantity := 0, TotalAskQuantity := 0, BidOrders := 0,
      AskOrders := 0, Spread := 0, MidPrice := 0 }
  let s1 := depth.Bids.foldl
    (fun st bid => { st with TotalBidQuantity := st.TotalBidQuantity + bid.Quantity,
                             BidOrders := st.BidOrders + bid.Orders }) s0
  let s2 := depth.Asks.foldl
    (fun st ask => { st with TotalAskQuantity := st.TotalAskQuantity + ask.Quantity,
                             AskOrders := st.AskOrders + ask.Orders }) s1
  match depth.Bids, depth.Asks with
  | bestBid :: _, bestAsk :: _ =>
    { s2 with Spread := bestAsk.Price - bestBid.Price,
              MidPrice := (bestBid.Price + bestAsk.Price) / 2 }
  | _, _ => s2

/-- The snapshot manager: registered books, the published snapshot map, and
the global `sequenceID` counter. -/
structure SnapshotManager where
  books : List (String × Book)
  snapshots : List (String × OrderBookSnapshot)
  sequenceID : Nat
  deriving DecidableEq, Repr

/-- `SnapshotManager.takeSnapshot` for one book, with the pre-increment value
of the global counter passed explicitly: `Sequence` is
`atomic.AddUint64(&sm.sequenceID, 1)`, i.e. `seq + 1`. -/
def takeSnapshot (seq : Nat) (instrument : String) (book : Book) :
    OrderBookSnapshot :=
  let depth := GetMarketDepth book 100
  let stats := calculateStats depth
  { Instrument := instrument, Sequence := seq + 1,
    Bids := depth.Bids, Asks := depth.Asks, Stats := stats }

/-- The loop body of `SnapshotManager.TakeSnapshots`: one registered book is
snapshotted (`takeSnapshot`, one counter increment) and its snapshot appended
to the fresh map being built. -/
def snapStep (acc : List (String × OrderBookSnapshot) × Nat) (ib : String × Book) :
    List (String × OrderBookSnapshot) × Nat :=
  (acc.1 ++ [(ib.1, takeSnapshot acc.2 ib.1 ib.2)], acc.2 + 1)

/-- `SnapshotManager.TakeSnapshots`: builds a fresh snapshot map over all
registered books (`snapStep` per book, starting from an empty map and the
current counter), then atomically replaces the published map and counter. -/
def TakeSnapshots (sm : SnapshotManager) : SnapshotManager :=
  let r := sm.books.foldl snapStep
    (([] : List (String × OrderBookSnapshot)), sm.sequenceID)
  { sm with snapshots := r.1, sequenceID := r.2 }

/-- `SnapshotManager.GetSnapshot`: looks the instrument up in the published
map (the source returns a defensive field-by-field copy, equal as a value). -/
def GetSnapshot (sm : SnapshotManager) (instrument : String) :
    Option OrderBookSnapshot :=
  sm.snapshots.lookup instrument

/-- Once the ask at the head has `Remaining = 0` (the empty-bodied `removeAsk`
cannot take it off the list) and a non-IOC taker still crosses it with
positive `remainingQty`, every iteration fills `min remQty 0 = 0` and loops
again: the loop never exits, whatever the fuel. -/
theorem matchLoopBuy_stuck (f : Nat) (a : Order) (rest : List Order) (t : Order)
    (rq : Int) (tr : List Trade)
    (hrem : a.Remaining = 0) (hrq : 0 < rq) (hioc : t.Typ ≠ OrderType.IOC)
    (hcross : t.Typ = OrderType.Market ∨ ¬ t.Price < a.Price) :
    (matchLoopBuy f ⟨a :: rest, t, rq, tr⟩).2 = false := by
  induction f generalizing tr with
  | zero => rfl
  | succ f ih =>
    have hstep : buyStep ⟨a :: rest, t, rq, tr⟩ =
        (true, ⟨a :: rest, t, rq, tr ++
          [{ Price := a.Price, Quantity := 0, MakerOrderID := a.ID,
             TakerOrderID := t.ID, Instrument := a.Instrument, Side := t.Side }]⟩) := by
      unfold buyStep
      have hnc : ¬ (t.Typ ≠ OrderType.Market ∧ t.Price < a.Price) := by
        rcases hcross with h | h
        · simp [h]
        · simp [h]
      have hmin : min rq a.Remaining = 0 := by
        rw [hrem]; exact min_eq_right hrq.le
      simp only [hnc, if_false, hmin, removeAsk, if_pos, if_neg, ite_self]
      have ha : { a with Remaining := a.Remaining - 0 } = a := by
        simp
      have ht : { t with Remaining := t.Remaining - 0 } = t := by
        simp
      simp [ha, ht, hioc]
    unfold matchLoopBuy
    rw [if_pos hrq, hstep]
    exact ih _

/-- A sample resting sell (ask) order: limit sell on "BTC-USD" with
`Remaining = Quantity`, status `New`. -/
def askAt (id : Nat) (price qty : Int) : Order :=
  { ID := id, Price := price, Quantity := qty, Remaining := qty,
    Side := OrderSide.Sell, Typ := OrderType.Limit,
    Instrument := "BTC-USD", Status := OrderStatus.New }

/-- A sample incoming buy order of a given type on "BTC-USD" with
`Remaining = Quantity`, status `New`. -/
def buyAt (id : Nat) (ty : OrderType) (price qty : Int) : Order :=
  { ID := id, Price := price, Quantity := qty, Remaining := qty,
    Side := OrderSide.Buy, Typ := ty,
    Instrument := "BTC-USD", Status := OrderStatus.New }

/-- C10: the claim says the matching loop terminates for every submitted order
and finite book; in the code, once the resting maker's `remaining` hits
exactly 0 while a non-IOC taker still has quantity left, the empty-bodied
`removeAsk` leaves the exhausted maker at the head and the loop emits
zero-quantity trades forever.  Concretely: a Limit buy for 5 at 100 against a
single resting ask of 3 at 100 never finishes (`matchLoopBuy` reports unexited
for every fuel, so `ProcessBuyOrder` yields no result), and after 3 iterations
the emitted trades are one fill of 3 followed by two zero-quantity trades. -/
theorem c10_matching_loop_diverges :
    (∀ f : Nat,
      (matchLoopBuy f ⟨[askAt 1 100 3], buyAt 2 OrderType.Limit 100 5, 5, []⟩).2 = false ∧
      ProcessBuyOrder f ⟨[], [askAt 1 100 3]⟩ (buyAt 2 OrderType.Limit 100 5) = none) ∧
    (matchLoopBuy 3 ⟨[askAt 1 100 3], buyAt 2 OrderType.Limit 100 5, 5, []⟩).1.trades =
      [{ Price := 100, Quantity := 3, MakerOrderID := 1, TakerOrderID := 2,
         Instrument := "BTC-USD", Side := OrderSide.Buy },
       { Price := 100, Quantity := 0, MakerOrderID := 1, TakerOrderID := 2,
         Instrument := "BTC-USD", Side := OrderSide.Buy },
       { Price := 100, Quantity := 0, MakerOrderID := 1, TakerOrderID := 2,
         Instrument := "BTC-USD", Side := OrderSide.Buy }] := by
  have key : ∀ f : Nat,
      (matchLoopBuy f ⟨[askAt 1 100 3], buyAt 2 OrderType.Limit 100 5, 5, []⟩).2 = false := by
    intro f
    cases f with
    | zero => rfl
    | succ f =>
      have h1 : matchLoopBuy (f + 1) ⟨[askAt 1 100 3], buyAt 2 OrderType.Limit 100 5, 5, []⟩
          = matchLoopBuy f ⟨[{ askAt 1 100 3 with Remaining := 0 }],
              { buyAt 2 OrderType.Limit 100 5 with Remaining := 2 }, 2,
              [{ Price := 100, Quantity := 3, MakerOrderID := 1, TakerOrderID := 2,
                 Instrument := "BTC-USD", Side := OrderSide.Buy }]⟩ := by
        rfl
      rw [h1]
      exact matchLoopBuy_stuck f _ _ _ _ _ rfl (by decide) (by decide) (Or.inr (by decide))
  refine ⟨fun f => ⟨key f, ?_⟩, ?_⟩
  · have h : (matchLoopBuy f ⟨[askAt 1 100 3], buyAt 2 OrderType.Limit 100 5,
        (buyAt 2 OrderType.Limit 100 5).Quantity, []⟩).2 = false := key f
    simp [ProcessBuyOrder, h]
  · have h3 := key 3
    revert h3
    decide

/-- C2: the claim requires a feasibility check before any fill so that an FOK
order larger than the crossable liquidity yields zero trades and zero state
mutation.  The code has no such check: an FOK buy for 10 at 100 against a
single resting ask of 4 at 100 immediately emits a trade of quantity 4 on the
trades channel and zeroes the resting ask's `remaining` (first conjunct pair),
and the submission then never completes at any fuel (the exhausted maker can
never be removed), so the operation certainly does not abort cleanly. -/
theorem c2_fok_fills_partially_and_mutates :
    (matchLoopBuy 1 ⟨[askAt 1 100 4], buyAt 2 OrderType.FOK 100 10, 10, []⟩).1.trades =
      [{ Price := 100, Quantity := 4, MakerOrderID := 1, TakerOrderID := 2,
         Instrument := "BTC-USD", Side := OrderSide.Buy }] ∧
    (matchLoopBuy 1 ⟨[askAt 1 100 4], buyAt 2 OrderType.FOK 100 10, 10, []⟩).1.asks =
      [{ askAt 1 100 4 with Remaining := 0 }] ∧
    (∀ f : Nat,
      ProcessBuyOrder f ⟨[], [askAt 1 100 4]⟩ (buyAt 2 OrderType.FOK 100 10) = none) := by
  have key : ∀ f : Nat,
      (matchLoopBuy f ⟨[askAt 1 100 4], buyAt 2 OrderType.FOK 100 10, 10, []⟩).2 = false := by
    intro f
    cases f with
    | zero => rfl
    | succ f =>
      have h1 : matchLoopBuy (f + 1) ⟨[askAt 1 100 4], buyAt 2 OrderType.FOK 100 10, 10, []⟩
          = matchLoopBuy f ⟨[{ askAt 1 100 4 with Remaining := 0 }],
              { buyAt 2 OrderType.FOK 100 10 with Remaining := 6 }, 6,
              [{ Price := 100, Quantity := 4, MakerOrderID := 1, TakerOrderID := 2,
                 Instrument := "BTC-USD", Side := OrderSide.Buy }]⟩ := by
        rfl
      rw [h1]
      exact matchLoopBuy_stuck f _ _ _ _ _ rfl (by decide) (by decide) (Or.inr (by decide))
  refine ⟨by decide, by decide, fun f => ?_⟩
  have h : (matchLoopBuy f ⟨[askAt 1 100 4], buyAt 2 OrderType.FOK 100 10,
      (buyAt 2 OrderType.FOK 100 10).Quantity, []⟩).2 = false := key f
  simp [ProcessBuyOrder, h]

/-- C1: the claim says each side stays sorted by (price, arrival) with the
best price at the head, so `GetBestBid`/`GetBestBidPrice` return the
highest-priced resting bid.  `AddBid` only appends at the tail: after
inserting a bid at 10 and then a bid at 20 into an empty book, the head (and
hence `GetBestBid`/`GetBestBidPrice`) is the price-10 bid while a price-20
bid rests behind it. -/
theorem c1_best_bid_is_not_highest_price :
    GetBestBid ⟨AddBid (AddBid [] (buyAt 1 OrderType.Limit 10 5))
        (buyAt 2 OrderType.Limit 20 5), []⟩
      = some (buyAt 1 OrderType.Limit 10 5) ∧
    GetBestBidPrice ⟨AddBid (AddBid [] (buyAt 1 OrderType.Limit 10 5))
        (buyAt 2 OrderType.Limit 20 5), []⟩ = some 10 ∧
    buyAt 2 OrderType.Limit 20 5 ∈
      AddBid (AddBid [] (buyAt 1 OrderType.Limit 10 5)) (buyAt 2 OrderType.Limit 20 5) ∧
    (buyAt 1 OrderType.Limit 10 5).Price < (buyAt 2 OrderType.Limit 20 5).Price := by
  decide

/-- C3: the claim says every resting order has `remaining > 0` and is removed
(and marked Filled) exactly when its remaining reaches 0 during matching.  An
IOC buy for 10 at 100 against a resting ask of 4 at 100 exhausts the ask, but
the empty-bodied `removeAsk` leaves it on the ask side: the final book rests an
order with `Remaining = 0`, still with status `New`, never marked Filled. -/
theorem c3_exhausted_order_left_resting :
    ProcessBuyOrder 1 ⟨[], [askAt 1 100 4]⟩ (buyAt 2 OrderType.IOC 100 10)
      = some (⟨[], [{ askAt 1 100 4 with Remaining := 0 }]⟩,
              { buyAt 2 OrderType.IOC 100 10 with Remaining := 6 },
              [{ Price := 100, Quantity := 4, MakerOrderID := 1, TakerOrderID := 2,
                 Instrument := "BTC-USD", Side := OrderSide.Buy }]) ∧
    ({ askAt 1 100 4 with Remaining := 0 }).Remaining = 0 ∧
    ({ askAt 1 100 4 with Remaining := 0 }).Status = OrderStatus.New := by
  decide

/-- C4: the claim says a Market taker's unfilled remainder is cancelled and
the order is never added to the book.  The post-loop resting guard only
excludes IOC and FOK, so a Market buy for 5 against an empty ask side is
appended to the bid side in full. -/
theorem c4_market_order_rests :
    ProcessBuyOrder 1 ⟨[], []⟩ (buyAt 7 OrderType.Market 0 5)
      = some (⟨[buyAt 7 OrderType.Market 0 5], []⟩, buyAt 7 OrderType.Market 0 5, []) := by
  decide

/-- C5: the claim says a PostOnly buy whose price crosses the best ask is
rejected with zero trades and never matches.  The code has no PostOnly
handling at all: a PostOnly buy for 5 at 100 against a resting ask of 5 at
100 matches and emits a trade of quantity 5. -/
theorem c5_postonly_crosses_and_matches :
    ProcessBuyOrder 2 ⟨[], [askAt 1 100 5]⟩ (buyAt 2 OrderType.PostOnly 100 5)
      = some (⟨[], [{ askAt 1 100 5 with Remaining := 0 }]⟩,
              { buyAt 2 OrderType.PostOnly 100 5 with Remaining := 0 },
              [{ Price := 100, Quantity := 5, MakerOrderID := 1, TakerOrderID := 2,
                 Instrument := "BTC-USD", Side := OrderSide.Buy }]) := by
  decide

/-- C7 counterexample: submitting the claimed IOC buy for 10 against 4 units
of crossable liquidity does produce trades totalling 4 and does not rest, but
the order's final status is `New`, not `Partial`: no code path ever writes the
status field. -/
theorem c7_final_status_is_new_not_partial :
    (ProcessBuyOrder 1 ⟨[], [askAt 11 100 4]⟩ (buyAt 12 OrderType.IOC 100 10)).map
        (fun r => r.2.1.Status) = some OrderStatus.New ∧
    OrderStatus.New ≠ OrderStatus.Partial := by
  decide

/-- C7 (amended): an IOC buy for quantity 10 against a single crossable
resting ask holding 4 units produces exactly one trade, of quantity 4; the
taker's remaining drops by 4 (6 left) and the taker is not added to the book
(the bid side is returned unchanged); the taker's status field is left
unchanged rather than set to `Partial`. -/
theorem c7_ioc_partial_fill_amended (bids : List Order) (a o : Order) (f : Nat)
    (ha : a.Remaining = 4) (hcross : ¬ o.Price < a.Price)
    (ht : o.Typ = OrderType.IOC) (hq : o.Quantity = 10) :
    ∃ tr : Trade,
      ProcessBuyOrder (f + 1) ⟨bids, [a]⟩ o
        = some (⟨bids, [{ a with Remaining := 0 }]⟩,
                { o with Remaining := o.Remaining - 4 }, [tr]) ∧
      tr.Quantity = 4 ∧
      ({ o with Remaining := o.Remaining - 4 }).Status = o.Status := by
  obtain ⟨aI, aP, aQ, aR, aS, aT, aIn, aSt⟩ := a
  obtain ⟨oI, oP, oQ, oR, oS, oT, oIn, oSt⟩ := o
  simp only at ha hcross ht hq
  subst ha ht hq
  refine ⟨{ Price := aP, Quantity := 4, MakerOrderID := aI, TakerOrderID := oI,
            Instrument := aIn, Side := oS }, ?_, rfl, rfl⟩
  unfold ProcessBuyOrder matchLoopBuy buyStep
  simp [hcross, removeAsk]

/-- Witness for the amended C7 at a concrete book and order. -/
theorem c7_ioc_partial_fill_amended_witness :
    ∃ tr : Trade,
      ProcessBuyOrder (0 + 1) ⟨[], [askAt 11 100 4]⟩ (buyAt 12 OrderType.IOC 100 10)
        = some (⟨[], [{ askAt 11 100 4 with Remaining := 0 }]⟩,
                { buyAt 12 OrderType.IOC 100 10 with
                    Remaining := (buyAt 12 OrderType.IOC 100 10).Remaining - 4 }, [tr]) ∧
      tr.Quantity = 4 ∧
      ({ buyAt 12 OrderType.IOC 100 10 with
          Remaining := (buyAt 12 OrderType.IOC 100 10).Remaining - 4 }).Status
        = (buyAt 12 OrderType.IOC 100 10).Status :=
  c7_ioc_partial_fill_amended [] (askAt 11 100 4) (buyAt 12 OrderType.IOC 100 10) 0
    (by decide) (by decide) (by decide) (by decide)

/-- C6: properties of every fill emitted by the matching loop.  The loop is
exactly iterated `buyStep`, and a fill is emitted exactly when `buyStep`
appends a trade, so the per-fill claim is stated over one `buyStep`: given the
taker was submitted with `Remaining = Quantity` (carried through the loop as
`taker.Remaining = remQty`, which `buyStep` preserves — first conjunct), any
emitted trade has the maker at the head of the opposite side, crosses only
for a Market taker or a limit price at or beyond the maker's price, has
quantity `min taker.remaining maker.remaining` and the maker's price, and
both the maker's and the taker's remaining decrease by exactly that
quantity. -/
theorem c6_fill_conservation (s : BuyState) (b : Bool) (sNext : BuyState)
    (hsync : s.taker.Remaining = s.remQty) (hstep : buyStep s = (b, sNext)) :
    sNext.taker.Remaining = sNext.remQty ∧
    ∀ t : Trade, sNext.trades = s.trades ++ [t] →
      ∃ maker rest, s.asks = maker :: rest ∧
        (s.taker.Typ = OrderType.Market ∨ maker.Price ≤ s.taker.Price) ∧
        t.Price = maker.Price ∧
        t.Quantity = min s.taker.Remaining maker.Remaining ∧
        sNext.taker.Remaining = s.taker.Remaining - t.Quantity ∧
        sNext.asks = { maker with Remaining := maker.Remaining - t.Quantity } :: rest := by
  rcases hA : s.asks with _ | ⟨maker, rest⟩
  · rw [buyStep, hA] at hstep
    have hs : sNext = s := (congrArg Prod.snd hstep).symm
    subst hs
    refine ⟨hsync, fun t ht => absurd ht ?_⟩
    simp
  · rw [buyStep, hA] at hstep
    simp only [removeAsk, ite_self] at hstep
    by_cases hc : s.taker.Typ ≠ OrderType.Market ∧ s.taker.Price < maker.Price
    · rw [if_pos hc] at hstep
      have hs : sNext = s := (congrArg Prod.snd hstep).symm
      subst hs
      refine ⟨hsync, fun t ht => absurd ht ?_⟩
      simp
    · rw [if_neg hc] at hstep
      push_neg at hc
      have hcross : s.taker.Typ = OrderType.Market ∨ maker.Price ≤ s.taker.Price := by
        by_cases hm : s.taker.Typ = OrderType.Market
        · exact Or.inl hm
        · exact Or.inr (hc hm)
      have hnext : sNext =
          { asks := { maker with Remaining := maker.Remaining - min s.remQty maker.Remaining } :: rest,
            taker := { s.taker with Remaining := s.taker.Remaining - min s.remQty maker.Remaining },
            remQty := s.remQty - min s.remQty maker.Remaining,
            trades := s.trades ++
              [{ Price := maker.Price, Quantity := min s.remQty maker.Remaining,
                 MakerOrderID := maker.ID, TakerOrderID := s.taker.ID,
                 Instrument := maker.Instrument, Side := s.taker.Side }] } := by
        by_cases hioc : s.taker.Typ = OrderType.IOC ∧ s.remQty - min s.remQty maker.Remaining > 0
        · rw [if_pos hioc] at hstep
          exact (congrArg Prod.snd hstep).symm
        · rw [if_neg hioc] at hstep
          exact (congrArg Prod.snd hstep).symm
      subst hnext
      refine ⟨by simp [hsync], fun t ht => ?_⟩
      have ht' : t = { Price := maker.Price, Quantity := min s.remQty maker.Remaining,
                       MakerOrderID := maker.ID, TakerOrderID := s.taker.ID,
                       Instrument := maker.Instrument, Side := s.taker.Side } := by
        have h2 := List.append_cancel_left ht
        simpa using h2.symm
      refine ⟨maker, rest, rfl, hcross, by rw [ht'], by rw [ht', hsync], by rw [ht'], by rw [ht']⟩

/-- Witness for C6 at a concrete fill: a Limit buy for 5 at 100 (remaining =
quantity = 5) against a resting ask of 3 at 90. -/
theorem c6_fill_conservation_witness :
    ∃ maker rest,
      ([askAt 1 90 3] : List Order) = maker :: rest ∧
      ((buyAt 2 OrderType.Limit 100 5).Typ = OrderType.Market ∨
        maker.Price ≤ (buyAt 2 OrderType.Limit 100 5).Price) ∧
      ({ Price := 90, Quantity := 3, MakerOrderID := 1, TakerOrderID := 2,
         Instrument := "BTC-USD", Side := OrderSide.Buy } : Trade).Price = maker.Price ∧
      ({ Price := 90, Quantity := 3, MakerOrderID := 1, TakerOrderID := 2,
         Instrument := "BTC-USD", Side := OrderSide.Buy } : Trade).Quantity
        = min (buyAt 2 OrderType.Limit 100 5).Remaining maker.Remaining ∧
      (buyStep ⟨[askAt 1 90 3], buyAt 2 OrderType.Limit 100 5, 5, []⟩).2.taker.Remaining
        = (buyAt 2 OrderType.Limit 100 5).Remaining -
          ({ Price := 90, Quantity := 3, MakerOrderID := 1, TakerOrderID := 2,
             Instrument := "BTC-USD", Side := OrderSide.Buy } : Trade).Quantity ∧
      (buyStep ⟨[askAt 1 90 3], buyAt 2 OrderType.Limit 100 5, 5, []⟩).2.asks
        = { maker with
              Remaining := maker.Remaining -
                ({ Price := 90, Quantity := 3, MakerOrderID := 1, TakerOrderID := 2,
                   Instrument := "BTC-USD", Side := OrderSide.Buy } : Trade).Quantity } :: rest :=
  (c6_fill_conservation ⟨[askAt 1 90 3], buyAt 2 OrderType.Limit 100 5, 5, []⟩
      (buyStep ⟨[askAt 1 90 3], buyAt 2 OrderType.Limit 100 5, 5, []⟩).1
      (buyStep ⟨[askAt 1 90 3], buyAt 2 OrderType.Limit 100 5, 5, []⟩).2
      rfl rfl).2
    { Price := 90, Quantity := 3, MakerOrderID := 1, TakerOrderID := 2,
      Instrument := "BTC-USD", Side := OrderSide.Buy } (by decide)

/-- `takeSnapshot` always yields empty depth and zero stats, because the
source's `GetMarketDepth` never populates the snapshot it allocates; only the
instrument and the freshly incremented sequence vary. -/
theorem takeSnapshot_eq (seq : Nat) (i : String) (b : Book) :
    takeSnapshot seq i b =
      { Instrument := i, Sequence := seq + 1, Bids := [], Asks := [],
        Stats := { TotalBidQuantity := 0, TotalAskQuantity := 0, BidOrders := 0,
                   AskOrders := 0, Spread := 0, MidPrice := 0 } } := rfl

/-- The `TakeSnapshots` fold advances the global counter by exactly the
number of registered books. -/
theorem snapFold_snd (books : List (String × Book))
    (acc : List (String × OrderBookSnapshot)) (seq : Nat) :
    (books.foldl snapStep (acc, seq)).2 = seq + books.length := by
  induction books generalizing acc seq with
  | nil => simp
  | cons ib rest ih =>
    rw [List.foldl_cons, snapStep, ih]
    simp
    omega

/-- Every snapshot produced by the `TakeSnapshots` fold (beyond the starting
accumulator) has a sequence in the half-open window advanced by the fold, and
empty bids, asks, and zero stats. -/
theorem snapFold_mem (books : List (String × Book))
    (acc : List (String × OrderBookSnapshot)) (seq : Nat)
    (k : String) (v : OrderBookSnapshot)
    (hp : (k, v) ∈ (books.foldl snapStep (acc, seq)).1) :
    (k, v) ∈ acc ∨ (seq < v.Sequence ∧ v.Sequence ≤ seq + books.length ∧
      v.Bids = [] ∧ v.Asks = [] ∧
      v.Stats = { TotalBidQuantity := 0, TotalAskQuantity := 0, BidOrders := 0,
                  AskOrders := 0, Spread := 0, MidPrice := 0 }) := by
  induction books generalizing acc seq with
  | nil => exact Or.inl hp
  | cons ib rest ih =>
    rw [List.foldl_cons, snapStep] at hp
    rcases ih (acc ++ [(ib.1, takeSnapshot seq ib.1 ib.2)]) (seq + 1) hp with hin | hb
    · rcases List.mem_append.mp hin with h | h
      · exact Or.inl h
      · right
        obtain ⟨hk, hv⟩ : k = ib.1 ∧ v = takeSnapshot seq ib.1 ib.2 := by simpa using h
        subst hv
        refine ⟨?_, ?_, rfl, rfl, rfl⟩
        · show seq < seq + 1
          omega
        · show seq + 1 ≤ seq + (rest.length + 1)
          omega
    · right
      obtain ⟨h1, h2, h3, h4, h5⟩ := hb
      refine ⟨by omega, ?_, h3, h4, h5⟩
      rw [List.length_cons]
      omega

/-- A successful association-list lookup comes from a member of the list. -/
theorem lookup_mem {α β : Type} [BEq α] [LawfulBEq α] {l : List (α × β)} {k : α} {v : β}
    (h : l.lookup k = some v) : (k, v) ∈ l := by
  induction l with
  | nil => simp [List.lookup] at h
  | cons p rest ih =>
    obtain ⟨k1, v1⟩ := p
    rw [List.lookup] at h
    split at h
    · next heq =>
      obtain rfl : k = k1 := eq_of_beq heq
      obtain rfl : v1 = v := by simpa using h
      exact List.mem_cons_self _ _
    · exact List.mem_cons_of_mem _ (ih h)

/-- C9: running a snapshot cycle and then a second cycle with no intervening
order activity, any snapshot published by the first cycle and any published by
the second have identical `Bids`, `Asks` and `Stats` (taking `i = j`, the two
snapshots of one book are identical up to sequence), and the second's
`Sequence` is strictly greater — for any pair of instruments, which is the
single global strictly increasing counter across all instruments'
snapshots. -/
theorem c9_snapshots_idempotent_and_monotonic (sm : SnapshotManager)
    (i j : String) (s1 s2 : OrderBookSnapshot)
    (h1 : GetSnapshot (TakeSnapshots sm) i = some s1)
    (h2 : GetSnapshot (TakeSnapshots (TakeSnapshots sm)) j = some s2) :
    s1.Bids = s2.Bids ∧ s1.Asks = s2.Asks ∧ s1.Stats = s2.Stats ∧
    s1.Sequence < s2.Sequence := by
  have hm1 : (i, s1) ∈ (sm.books.foldl snapStep ([], sm.sequenceID)).1 :=
    lookup_mem h1
  have hm2 : (j, s2) ∈ ((TakeSnapshots sm).books.foldl snapStep
      ([], (TakeSnapshots sm).sequenceID)).1 :=
    lookup_mem h2
  have hb1 := snapFold_mem sm.books [] sm.sequenceID i s1 hm1
  have hb2 := snapFold_mem (TakeSnapshots sm).books [] (TakeSnapshots sm).sequenceID
    j s2 hm2
  rcases hb1 with habs | ⟨hlo1, hhi1, hB1, hA1, hS1⟩
  · simp at habs
  rcases hb2 with habs | ⟨hlo2, hhi2, hB2, hA2, hS2⟩
  · simp at habs
  have hseq : (TakeSnapshots sm).sequenceID = sm.sequenceID + sm.books.length :=
    snapFold_snd sm.books [] sm.sequenceID
  refine ⟨by rw [hB1, hB2], by rw [hA1, hA2], by rw [hS1, hS2], ?_⟩
  rw [hseq] at hlo2
  omega

/-- Witness for C9: one registered book, counter starting at 0; the first
cycle publishes sequence 1 and the second publishes sequence 2, with equal
(empty) depth and stats. -/
theorem c9_snapshots_idempotent_and_monotonic_witness :
    ({ Instrument := "BTC-USD", Sequence := 1, Bids := [], Asks := [],
       Stats := { TotalBidQuantity := 0, TotalAskQuantity := 0, BidOrders := 0,
                  AskOrders := 0, Spread := 0, MidPrice := 0 } } : OrderBookSnapshot).Bids =
      ({ Instrument := "BTC-USD", Sequence := 2, Bids := [], Asks := [],
         Stats := { TotalBidQuantity := 0, TotalAskQuantity := 0, BidOrders := 0,
                    AskOrders := 0, Spread := 0, MidPrice := 0 } } : OrderBookSnapshot).Bids ∧
    ({ Instrument := "BTC-USD", Sequence := 1, Bids := [], Asks := [],
       Stats := { TotalBidQuantity := 0, TotalAskQuantity := 0, BidOrders := 0,
                  AskOrders := 0, Spread := 0, MidPrice := 0 } } : OrderBookSnapshot).Asks =
      ({ Instrument := "BTC-USD", Sequence := 2, Bids := [], Asks := [],
         Stats := { TotalBidQuantity := 0, TotalAskQuantity := 0, BidOrders := 0,
                    AskOrders := 0, Spread := 0, MidPrice := 0 } } : OrderBookSnapshot).Asks ∧
    ({ Instrument := "BTC-USD", Sequence := 1, Bids := [], Asks := [],
       Stats := { TotalBidQuantity := 0, TotalAskQuantity := 0, BidOrders := 0,
                  AskOrders := 0, Spread := 0, MidPrice := 0 } } : OrderBookSnapshot).Stats =
      ({ Instrument := "BTC-USD", Sequence := 2, Bids := [], Asks := [],
         Stats := { TotalBidQuantity := 0, TotalAskQuantity := 0, BidOrders := 0,
                    AskOrders := 0, Spread := 0, MidPrice := 0 } } : OrderBookSnapshot).Stats ∧
    ({ Instrument := "BTC-USD", Sequence := 1, Bids := [], Asks := [],
       Stats := { TotalBidQuantity := 0, TotalAskQuantity := 0, BidOrders := 0,
                  AskOrders := 0, Spread := 0, MidPrice := 0 } } : OrderBookSnapshot).Sequence <
      ({ Instrument := "BTC-USD", Sequence := 2, Bids := [], Asks := [],
         Stats := { TotalBidQuantity := 0, TotalAskQuantity := 0, BidOrders := 0,
                    AskOrders := 0, Spread := 0, MidPrice := 0 } } : OrderBookSnapshot).Sequence :=
  c9_snapshots_idempotent_and_monotonic
    ⟨[("BTC-USD", ⟨[], []⟩)], [], 0⟩ "BTC-USD" "BTC-USD" _ _ (by decide) (by decide)

